import Mathlib

/-!
Verification of the transaction-intent classifier, transfer aggregator,
and tax-report aggregation of the onchain-wallets dashboard.

The definitions below are a shallow embedding of the TypeScript source:
  * `jsToLower`, truthiness helpers: the JS string/number idioms the source
    relies on (ASCII `toLowerCase`, `if (x)` truthiness on nullable values);
  * `AlchemyTransfer`, `AggregatedTx`, `classifyAggregatedTx`,
    `shouldNeedReview`, `getConfidence`, `groupTransfers`,
    `buildInsertTx`: the alchemy fetch/classification module;
  * `DatabaseStorage`-backed operations (`getTransaction`,
    `classifyTransaction`, `getDisposals`, `getReportSummary`) over an
    explicit in-memory database state, and the wallet-sync insert loop.

Money/decimal columns are modelled as exact rationals (the source stores
decimal strings and computes with JS floats); JS `Date` values are epoch
milliseconds (`Int`).
-/

/-- ASCII lowercasing of one character, as JS `toLowerCase` acts on the
ASCII range (the addresses and symbols compared by the source are ASCII). -/
def jsLowerChar (c : Char) : Char :=
  if 65 ≤ c.toNat ∧ c.toNat ≤ 90 then Char.ofNat (c.toNat + 32) else c

/-- JS `String.prototype.toLowerCase()` restricted to ASCII input. -/
def jsToLower (s : String) : String := ⟨s.data.map jsLowerChar⟩

/-- `x?.toLowerCase()` on a nullable string. -/
def lowOpt (o : Option String) : Option String := o.map jsToLower

/-- JS truthiness of a nullable number (`null`, `0` are falsy). -/
def truthyVal : Option ℚ → Bool
  | none => false
  | some q => q ≠ 0

/-- JS truthiness of a nullable string (`null`, `""` are falsy). -/
def truthyStr : Option String → Bool
  | none => false
  | some s => s ≠ ""

/-- `rawContract` sub-object of an Alchemy transfer. -/
structure RawContract where
  address : Option String
  decimal : Option String
  value : Option String
deriving DecidableEq, Repr, Inhabited

/-- `metadata` sub-object of an Alchemy transfer. -/
structure TransferMetadata where
  blockTimestamp : String
deriving DecidableEq, Repr, Inhabited

/-- One raw asset transfer as returned by `alchemy_getAssetTransfers`.
The source field `from` is a Lean keyword and is rendered `fromAddr`;
`value : number | null` is rendered as an exact rational. -/
structure AlchemyTransfer where
  blockNum : String
  hash : String
  fromAddr : String
  toAddr : Option String
  value : Option ℚ
  asset : Option String
  category : String
  rawContract : RawContract
  metadata : TransferMetadata
deriving DecidableEq, Repr, Inhabited

/-- One inbound/outbound token leg of an aggregated transaction.
The source stores `amount` as `value.toString()`; the numeric value is kept. -/
structure TokenLeg where
  address : Option String
  symbol : Option String
  amount : ℚ
deriving DecidableEq, Repr

/-- `AggregatedTx`: all transfers sharing one transaction hash, with the
derived legs and flags computed by the grouping loop of `fetchTransactions`. -/
structure AggregatedTx where
  hash : String
  blockNum : String
  timestamp : String
  transfers : List AlchemyTransfer
  tokensIn : List TokenLeg
  tokensOut : List TokenLeg
  hasNft : Bool
  nftMint : Bool
  isInternal : Bool
  contractInteraction : Bool
deriving DecidableEq, Repr

/-- `KNOWN_DEX_ROUTERS` (a JS `Set`, modelled as the same list of lowercase
addresses; the source only uses membership tests). -/
def KNOWN_DEX_ROUTERS : List String :=
  [ "0x7a250d5630b4cf539739df2c5dacb4c659f2488d"
  , "0xe592427a0aece92de3edee1f18e0157c05861564"
  , "0x68b3465833fb72a70ecdf485e0e4c7bd8665fc45"
  , "0xef1c6e67703c7bd7107eed8303fbe6ec2554bf6b"
  , "0x1111111254eeb25477b68fb85ed929f73a960582"
  , "0xdef1c0ded9bec7f1a1670819833240f027b25eff"
  , "0xd9e1ce17f2641f24ae83637ab66a2cca9c378b9f" ]

def NULL_ADDRESS : String := "0x0000000000000000000000000000000000000000"

/-- `hasIn` / `hasOut` of the classifier (`tx.tokensIn.length > 0`). -/
def hasInB (tx : AggregatedTx) : Bool := decide (0 < tx.tokensIn.length)

def hasOutB (tx : AggregatedTx) : Bool := decide (0 < tx.tokensOut.length)

/-- `interactedWithDex`: a known DEX router is the sender or recipient of
some transfer of the group. -/
def interactedWithDexB (tx : AggregatedTx) : Bool :=
  tx.transfers.any fun t =>
    KNOWN_DEX_ROUTERS.contains (jsToLower t.fromAddr) ||
    KNOWN_DEX_ROUTERS.contains ((lowOpt t.toAddr).getD "")

/-- `inSymbols`: the lowercased inbound symbols (JS `Set` built after
`.filter(Boolean)`, which drops `undefined` and the empty string). -/
def inSymbolsOf (tx : AggregatedTx) : List String :=
  (tx.tokensIn.filterMap fun t => t.symbol.map jsToLower).filter (· ≠ "")

/-- `outSymbols`, symmetric to `inSymbolsOf`. -/
def outSymbolsOf (tx : AggregatedTx) : List String :=
  (tx.tokensOut.filterMap fun t => t.symbol.map jsToLower).filter (· ≠ "")

/-- `hasDistinctTokens`: both symbol sets are nonempty and some inbound
symbol is absent from the outbound set. -/
def hasDistinctTokensB (tx : AggregatedTx) : Bool :=
  decide (0 < (inSymbolsOf tx).length) && decide (0 < (outSymbolsOf tx).length) &&
    (inSymbolsOf tx).any fun s => ! (outSymbolsOf tx).contains s

/-- `fromNullAddr`: some transfer of the group is from the null address to
the (lowercased) wallet. -/
def fromNullAddrB (tx : AggregatedTx) (wallet : String) : Bool :=
  tx.transfers.any fun t =>
    jsToLower t.fromAddr == NULL_ADDRESS && lowOpt t.toAddr == some wallet

/-- The decision tree of `classifyAggregatedTx` after the single-transfer
early returns (`wallet` is already lowercased, as in the source; the
source's local `const`s are the named helper functions above). -/
def classifyRest (tx : AggregatedTx) (wallet : String) : String :=
  if tx.hasNft then
    if tx.nftMint then "nft_mint" else "nft_sale"
  else if hasInB tx && hasOutB tx then
    if hasDistinctTokensB tx then "swap"
    else if interactedWithDexB tx then "swap"
    else "transfer"
  else if hasInB tx && !hasOutB tx then
    if fromNullAddrB tx wallet then "airdrop"
    else if tx.isInternal then "reward"
    else "transfer"
  else if hasOutB tx && !hasInB tx then "transfer"
  else if tx.transfers.length ≠ 0 then "contract_interaction"
  else "unknown"

/-- `classifyAggregatedTx(tx, walletAddress)`: the heuristic intent
classifier. The single-transfer early returns are rendered as a match on
`tx.transfers`; the remaining tree is `classifyRest`. -/
def classifyAggregatedTx (tx : AggregatedTx) (walletAddress : String) : String :=
  match tx.transfers with
  | [t] =>
    if lowOpt t.toAddr = some (jsToLower t.fromAddr) then "self_transfer"
    else if jsToLower t.fromAddr = jsToLower walletAddress ∨
            lowOpt t.toAddr = some (jsToLower walletAddress) then "transfer"
    else classifyRest tx (jsToLower walletAddress)
  | _ => classifyRest tx (jsToLower walletAddress)

/-- `shouldNeedReview(classification)`. -/
def shouldNeedReview (classification : String) : Bool :=
  classification == "unknown" || classification == "contract_interaction"

/-- `getConfidence(classification)` (the source returns decimal strings). -/
def getConfidence (classification : String) : String :=
  if classification == "swap" then "0.8"
  else if classification == "transfer" then "0.9"
  else if classification == "airdrop" then "0.7"
  else if classification == "nft_mint" then "0.9"
  else if classification == "nft_sale" then "0.7"
  else if classification == "self_transfer" then "0.95"
  else if classification == "reward" then "0.6"
  else "0.0"

/-- `transfer.from.toLowerCase() === wallet` (wallet already lowercased). -/
def isOutgoingB (wallet : String) (t : AlchemyTransfer) : Bool :=
  jsToLower t.fromAddr == wallet

/-- `transfer.to?.toLowerCase() === wallet`. -/
def isIncomingB (wallet : String) (t : AlchemyTransfer) : Bool :=
  lowOpt t.toAddr == some wallet

/-- `transfer.category === "erc721" || transfer.category === "erc1155"`. -/
def isNftB (t : AlchemyTransfer) : Bool :=
  t.category == "erc721" || t.category == "erc1155"

/-- `transfer.from.toLowerCase() === NULL_ADDRESS`. -/
def isMintB (t : AlchemyTransfer) : Bool :=
  jsToLower t.fromAddr == NULL_ADDRESS

/-- The token leg pushed onto `tokensIn`/`tokensOut` for one transfer. -/
def legOf (t : AlchemyTransfer) : TokenLeg :=
  { address := t.rawContract.address, symbol := t.asset
  , amount := t.value.getD 0 }

/-- The mutation of an existing `AggregatedTx` by one further transfer with
the same hash (the `existing` branch of the grouping loop). -/
def addTransfer (wallet : String) (ex : AggregatedTx) (t : AlchemyTransfer) :
    AggregatedTx :=
  { ex with
    transfers := ex.transfers ++ [t]
    tokensIn :=
      if isIncomingB wallet t && truthyVal t.value
      then ex.tokensIn ++ [legOf t] else ex.tokensIn
    tokensOut :=
      if isOutgoingB wallet t && truthyVal t.value
      then ex.tokensOut ++ [legOf t] else ex.tokensOut
    hasNft := ex.hasNft || isNftB t
    nftMint := ex.nftMint || (isNftB t && isMintB t)
    isInternal := ex.isInternal || (t.category == "internal")
    contractInteraction := ex.contractInteraction || truthyStr t.rawContract.address }

/-- The fresh `AggregatedTx` created for the first transfer of a hash (the
`else` branch of the grouping loop). -/
def newAggTx (wallet : String) (t : AlchemyTransfer) : AggregatedTx :=
  { hash := t.hash, blockNum := t.blockNum
  , timestamp := t.metadata.blockTimestamp
  , transfers := [t]
  , tokensIn :=
      if isIncomingB wallet t && truthyVal t.value then [legOf t] else []
  , tokensOut :=
      if isOutgoingB wallet t && truthyVal t.value then [legOf t] else []
  , hasNft := isNftB t
  , nftMint := isNftB t && isMintB t
  , isInternal := t.category == "internal"
  , contractInteraction := truthyStr t.rawContract.address }

/-- One iteration of the grouping loop: look up the transfer's hash in the
map (a JS `Map`, modelled as an insertion-ordered association list) and
either mutate the existing entry or append a new one. -/
def groupStep (wallet : String) (m : List (String × AggregatedTx))
    (t : AlchemyTransfer) : List (String × AggregatedTx) :=
  match m.find? (fun p => p.1 == t.hash) with
  | some _ =>
      m.map fun p => if p.1 == t.hash then (p.1, addTransfer wallet p.2 t) else p
  | none => m ++ [(t.hash, newAggTx wallet t)]

/-- The grouping loop of `fetchTransactions`: fold all fetched transfers into
the hash-keyed map (`wallet` already lowercased, as in the source). -/
def groupTransfers (wallet : String) (ts : List AlchemyTransfer) :
    List (String × AggregatedTx) :=
  ts.foldl (groupStep wallet) []

/-- Numeric value of an ASCII digit. -/
def charDigit (c : Char) : Option ℕ :=
  if 48 ≤ c.toNat ∧ c.toNat ≤ 57 then some (c.toNat - 48) else none

/-- Value of a nonempty digit string. -/
def digitsVal (cs : List Char) : Option ℕ :=
  if cs.isEmpty then none
  else cs.foldl (fun acc c =>
    match acc, charDigit c with
    | some n, some d => some (n * 10 + d)
    | _, _ => none) (some 0)

/-- Split a character list at the first `'.'`. -/
def splitDot : List Char → List Char × Option (List Char)
  | [] => ([], none)
  | c :: cs =>
    if c = '.' then ([], some cs)
    else
      let r := splitDot cs
      (c :: r.1, r.2)

/-- Exact rational value of a decimal literal `ddd` or `ddd.ddd`, used to
read back the confidence strings the source produces. -/
def parseDecimal (s : String) : Option ℚ :=
  match splitDot s.data with
  | (intPart, none) => (digitsVal intPart).map fun n => (n : ℚ)
  | (intPart, some fracPart) =>
    match digitsVal intPart, digitsVal fracPart with
    | some n, some f => some ((n : ℚ) + (f : ℚ) / (10 : ℚ) ^ fracPart.length)
    | _, _ => none

/-- The `wallets` table (columns used by the verified operations). -/
structure Wallet where
  id : String
  userId : String
  address : String
  chain : String
deriving DecidableEq, Repr

/-- The `transactions` table. USD money columns (`decimal(20,2)`) are exact
integer cents; `timestamp` is epoch milliseconds. Presentation-only columns
(block number, gas, price, spam/dust flags, token legs) that no verified
operation reads are omitted. -/
structure Transaction where
  id : String
  walletId : String
  txHash : String
  chain : String
  timestamp : Int
  classification : String
  classificationConfidence : String
  needsReview : Bool
  userClassified : Bool
  valueUsd : Option Int
deriving DecidableEq, Repr

/-- The `tax_lots` table (columns used by `getDisposals`). -/
structure TaxLot where
  id : String
  walletId : String
  token : String
  amount : ℚ
  remainingAmount : ℚ
  costBasisUsd : Int
  acquiredAt : Int
deriving DecidableEq, Repr

/-- The `disposals` table; `gainLossUsd`, `proceedsUsd`, `costBasisUsd` are
integer cents, `disposedAt` epoch milliseconds. -/
structure Disposal where
  id : String
  taxLotId : String
  token : String
  amount : ℚ
  proceedsUsd : Int
  costBasisUsd : Int
  gainLossUsd : Int
  isShortTerm : Bool
  disposedAt : Int
deriving DecidableEq, Repr

/-- The database state seen by `DatabaseStorage`. -/
structure DB where
  wallets : List Wallet
  transactions : List Transaction
  taxLots : List TaxLot
  disposals : List Disposal
deriving DecidableEq, Repr

/-- The user's wallet ids, as selected at the start of the user-scoped
storage methods. -/
def userWalletIds (db : DB) (userId : String) : List String :=
  (db.wallets.filter fun w => w.userId == userId).map (·.id)

/-- `getTransaction(id, userId)`. -/
def getTransaction (db : DB) (id userId : String) : Option Transaction :=
  let walletIds := userWalletIds db userId
  if walletIds.isEmpty then none
  else db.transactions.find? fun t => t.id == id && walletIds.contains t.walletId

/-- `classifyTransaction(id, classification, userId)`: verify ownership, then
update the row, returning the new state and the updated row. -/
def classifyTransaction (db : DB) (id classification userId : String) :
    DB × Option Transaction :=
  match getTransaction db id userId with
  | none => (db, none)
  | some _ =>
    let updated := db.transactions.map fun t =>
      if t.id == id then
        { t with classification := classification
               , needsReview := false
               , userClassified := true
               , classificationConfidence := "1.0" }
      else t
    ({ db with transactions := updated }, updated.find? fun t => t.id == id)

/-- `getTransactionByHash(txHash, userId)`. -/
def getTransactionByHash (db : DB) (txHash userId : String) : Option Transaction :=
  let walletIds := userWalletIds db userId
  if walletIds.isEmpty then none
  else db.transactions.find? fun t => t.txHash == txHash && walletIds.contains t.walletId

/-- Days since 1970-01-01 of a proleptic-Gregorian civil date
(the standard era-based calendar algorithm). -/
def daysFromCivil (y m d : Int) : Int :=
  let y' := if m ≤ 2 then y - 1 else y
  let era := y'.fdiv 400
  let yoe := y' - era * 400
  let mp := (m + 9) % 12
  let doy := (153 * mp + 2).fdiv 5 + d - 1
  let doe := yoe * 365 + yoe.fdiv 4 - yoe.fdiv 100 + doy
  era * 146097 + doe - 719468

/-- Midnight UTC on January 1 of a proleptic-Gregorian calendar year, in
epoch milliseconds. -/
def civilYearStart (year : Int) : Int := 86400000 * daysFromCivil year 1 1

/-- `new Date(year, 0, 1).getTime()` on a UTC-configured server, in epoch
milliseconds, including the ECMAScript two-digit-year rule: a year argument
in 0..99 denotes 1900..1999. -/
def jsDateYearStart (year : Int) : Int :=
  civilYearStart (if 0 ≤ year ∧ year ≤ 99 then 1900 + year else year)

/-- The date window actually applied by the report code:
`disposedAt >= new Date(year,0,1) && disposedAt < new Date(year+1,0,1)`. -/
def disposalDateOk (year : Int) (d : Disposal) : Bool :=
  decide (jsDateYearStart year ≤ d.disposedAt) &&
  decide (d.disposedAt < jsDateYearStart (year + 1))

/-- Spec wording: disposed within the target calendar year, i.e. in
[Jan 1 of the year, Jan 1 of the next year). -/
def inCivilYear (year : Int) (d : Disposal) : Bool :=
  decide (civilYearStart year ≤ d.disposedAt) &&
  decide (d.disposedAt < civilYearStart (year + 1))

/-- The ids of the user's tax lots (lots on the user's wallets). -/
def userTaxLotIds (db : DB) (userId : String) : List String :=
  (db.taxLots.filter fun l => (userWalletIds db userId).contains l.walletId).map (·.id)

/-- `getDisposals(year, userId)`: the user's disposals whose `disposedAt`
falls in the target year, newest first. `if (year)` is JS truthiness, so the
date condition is only applied for a nonzero year. -/
def getDisposals (db : DB) (year : Int) (userId : String) : List Disposal :=
  if (userWalletIds db userId).isEmpty then []
  else if (userTaxLotIds db userId).isEmpty then []
  else
    (db.disposals.filter fun d =>
      (if year ≠ 0 then disposalDateOk year d else true) &&
      (userTaxLotIds db userId).contains d.taxLotId).mergeSort
      fun d1 d2 => decide (d2.disposedAt ≤ d1.disposedAt)

/-- The classifications treated as income by `getReportSummary`. -/
def incomeClassifications : List String := ["reward", "airdrop", "interest", "income"]

/-- Result of `getReportSummary`; the source formats the money totals with
`toFixed(2)` for display, here they stay exact integer cents. -/
structure ReportSummary where
  totalDisposals : ℕ
  shortTermGains : Int
  shortTermLosses : Int
  longTermGains : Int
  longTermLosses : Int
  netGainLoss : Int
  totalIncome : Int
  needsReviewCount : ℕ
  disposals : List Disposal
deriving DecidableEq, Repr

/-- The loop body accumulating the four gain/loss totals
(`shortTermGains`, `shortTermLosses`, `longTermGains`, `longTermLosses`);
losses are accumulated as absolute values. -/
def gainLossStep (acc : Int × Int × Int × Int) (d : Disposal) :
    Int × Int × Int × Int :=
  if d.isShortTerm then
    if 0 ≤ d.gainLossUsd then (acc.1 + d.gainLossUsd, acc.2.1, acc.2.2.1, acc.2.2.2)
    else (acc.1, acc.2.1 + |d.gainLossUsd|, acc.2.2.1, acc.2.2.2)
  else
    if 0 ≤ d.gainLossUsd then (acc.1, acc.2.1, acc.2.2.1 + d.gainLossUsd, acc.2.2.2)
    else (acc.1, acc.2.1, acc.2.2.1, acc.2.2.2 + |d.gainLossUsd|)

/-- The loop body of the income total (`if (tx.valueUsd) totalIncome += ...`;
a stored value is never the empty string, so truthiness is presence). -/
def addValueUsd (s : Int) (t : Transaction) : Int :=
  match t.valueUsd with
  | some v => s + v
  | none => s

/-- The income-transaction selection of `getReportSummary` (dates per the
code's `new Date(year,0,1)` bounds). -/
def isIncomeTxB (db : DB) (year : Int) (userId : String) (t : Transaction) : Bool :=
  (userWalletIds db userId).contains t.walletId &&
  incomeClassifications.contains t.classification &&
  decide (jsDateYearStart year ≤ t.timestamp) &&
  decide (t.timestamp < jsDateYearStart (year + 1))

/-- Spec wording: an income-classified transaction of the user with a
timestamp inside the target calendar year. -/
def isIncomeTxCivil (db : DB) (year : Int) (userId : String) (t : Transaction) : Bool :=
  (userWalletIds db userId).contains t.walletId &&
  incomeClassifications.contains t.classification &&
  decide (civilYearStart year ≤ t.timestamp) &&
  decide (t.timestamp < civilYearStart (year + 1))

/-- `getReportSummary(year, userId)`. -/
def getReportSummary (db : DB) (year : Int) (userId : String) : ReportSummary :=
  { totalDisposals := (getDisposals db year userId).length
  , shortTermGains :=
      ((getDisposals db year userId).foldl gainLossStep (0, 0, 0, 0)).1
  , shortTermLosses :=
      ((getDisposals db year userId).foldl gainLossStep (0, 0, 0, 0)).2.1
  , longTermGains :=
      ((getDisposals db year userId).foldl gainLossStep (0, 0, 0, 0)).2.2.1
  , longTermLosses :=
      ((getDisposals db year userId).foldl gainLossStep (0, 0, 0, 0)).2.2.2
  , netGainLoss :=
      (((getDisposals db year userId).foldl gainLossStep (0, 0, 0, 0)).1 -
        ((getDisposals db year userId).foldl gainLossStep (0, 0, 0, 0)).2.1) +
      (((getDisposals db year userId).foldl gainLossStep (0, 0, 0, 0)).2.2.1 -
        ((getDisposals db year userId).foldl gainLossStep (0, 0, 0, 0)).2.2.2)
  , totalIncome :=
      if (userWalletIds db userId).isEmpty then 0
      else (db.transactions.filter (isIncomeTxB db year userId)).foldl addValueUsd 0
  , needsReviewCount :=
      if (userWalletIds db userId).isEmpty then 0
      else (db.transactions.filter fun t =>
        (userWalletIds db userId).contains t.walletId && t.needsReview).length
  , disposals := getDisposals db year userId }

/-- The `InsertTransaction` rows built at the end of `fetchTransactions`
(columns as in `Transaction`; `userClassified`/`isSpam` literals kept). -/
structure InsertTransaction where
  walletId : String
  txHash : String
  chain : String
  timestamp : Int
  tokenIn : Option String
  tokenInSymbol : Option String
  tokenOut : Option String
  tokenOutSymbol : Option String
  classification : String
  classificationConfidence : String
  needsReview : Bool
  userClassified : Bool
  contractAddress : Option String
  valueUsd : Option Int
  isSpam : Bool
  isDust : Bool
deriving DecidableEq, Repr

/-- `toFixed(2)` of a nonnegative USD amount, as integer cents. -/
def round2cents (q : ℚ) : Int := round (q * 100)

/-- One row of the transaction-building loop at the end of
`fetchTransactions`. `jsDate` models `new Date(isoString).getTime()` (an
external JS Date semantics, passed as a parameter). -/
def buildInsertTx (jsDate : String → Int) (walletAddress chain walletId : String)
    (tx : AggregatedTx) : InsertTransaction :=
  let classification := classifyAggregatedTx tx walletAddress
  let primaryIn := tx.tokensIn.head?
  let primaryOut := tx.tokensOut.head?
  let contractAddr :=
    match tx.transfers.find? (fun t => truthyStr t.rawContract.address) with
    | some t => t.rawContract.address
    | none => none
  let totalValue : ℚ := tx.transfers.foldl (fun sum t => sum + t.value.getD 0) 0
  { walletId := walletId
  , txHash := tx.hash
  , chain := chain
  , timestamp := jsDate tx.timestamp
  , tokenIn := primaryIn.bind fun l => if truthyStr l.address then l.address else none
  , tokenInSymbol := primaryIn.bind fun l => if truthyStr l.symbol then l.symbol else none
  , tokenOut := primaryOut.bind fun l => if truthyStr l.address then l.address else none
  , tokenOutSymbol := primaryOut.bind fun l => if truthyStr l.symbol then l.symbol else none
  , classification := classification
  , classificationConfidence := getConfidence classification
  , needsReview := shouldNeedReview classification
  , userClassified := false
  , contractAddress := contractAddr
  , valueUsd := if 0 < totalValue then some (round2cents totalValue) else none
  , isSpam := false
  , isDust := decide (0 < totalValue ∧ totalValue < 1) }

/-- The successful path of `fetchTransactions`: group the fetched transfers
and build one `InsertTransaction` per group. -/
def fetchTransactionsPure (jsDate : String → Int)
    (walletAddress chain walletId : String)
    (allTransfers : List AlchemyTransfer) : List InsertTransaction :=
  (groupTransfers (jsToLower walletAddress) allTransfers).map fun p =>
    buildInsertTx jsDate walletAddress chain walletId p.2

/-- `createTransaction`: append the row; the id stands for the DB-generated
key (its value is irrelevant to the verified properties). -/
def createTransaction (db : DB) (it : InsertTransaction) : DB × Transaction :=
  let t : Transaction :=
    { id := toString db.transactions.length
    , walletId := it.walletId
    , txHash := it.txHash
    , chain := it.chain
    , timestamp := it.timestamp
    , classification := it.classification
    , classificationConfidence := it.classificationConfidence
    , needsReview := it.needsReview
    , userClassified := it.userClassified
    , valueUsd := it.valueUsd }
  ({ db with transactions := db.transactions ++ [t] }, t)

/-- Accumulator of the sync loop in `POST /api/wallets/:id/sync`. -/
structure SyncState where
  db : DB
  imported : ℕ
  skipped : ℕ
  needsReviewTxs : List Transaction
deriving DecidableEq, Repr

/-- One iteration of the sync loop: check-then-insert on the tx hash. -/
def syncStep (userId : String) (st : SyncState) (it : InsertTransaction) :
    SyncState :=
  match getTransactionByHash st.db it.txHash userId with
  | some _ => { st with skipped := st.skipped + 1 }
  | none =>
    let r := createTransaction st.db it
    { db := r.1
    , imported := st.imported + 1
    , skipped := st.skipped
    , needsReviewTxs :=
        if r.2.needsReview then st.needsReviewTxs ++ [r.2] else st.needsReviewTxs }

/-- The whole sync insert loop over the fetched transactions. -/
def syncWallet (db : DB) (userId : String) (its : List InsertTransaction) :
    SyncState :=
  its.foldl (syncStep userId) ⟨db, 0, 0, []⟩

/-- The fixed label set of the classifier. -/
def classificationLabels : List String :=
  ["self_transfer", "transfer", "nft_mint", "nft_sale", "swap", "airdrop",
   "reward", "contract_interaction", "unknown"]

/-- Spec wording: a known DEX router address appears as sender or recipient
of some transfer of the group. -/
def RouterInvolved (tx : AggregatedTx) : Prop :=
  ∃ t ∈ tx.transfers,
    jsToLower t.fromAddr ∈ KNOWN_DEX_ROUTERS ∨
    ∃ a, t.toAddr = some a ∧ jsToLower a ∈ KNOWN_DEX_ROUTERS

/-- Spec wording: the outbound symbol set is nonempty and some inbound
symbol is absent from it (symbols compared lowercased; legs with missing or
empty symbols ignored). -/
def InboundSymbolMissing (tx : AggregatedTx) : Prop :=
  (∃ l ∈ tx.tokensOut, ∃ s, l.symbol = some s ∧ jsToLower s ≠ "") ∧
  ∃ l ∈ tx.tokensIn, ∃ s, l.symbol = some s ∧ jsToLower s ≠ "" ∧
    ∀ l' ∈ tx.tokensOut, ∀ s', l'.symbol = some s' → jsToLower s' ≠ jsToLower s

/-- Spec wording: some transfer of the group is sent by the canonical null
address to the wallet. -/
def FromNullToWallet (tx : AggregatedTx) (walletAddress : String) : Prop :=
  ∃ t ∈ tx.transfers, jsToLower t.fromAddr = NULL_ADDRESS ∧
    ∃ a, t.toAddr = some a ∧ jsToLower a = jsToLower walletAddress

instance (tx : AggregatedTx) : Decidable (RouterInvolved tx) := by
  unfold RouterInvolved
  infer_instance

instance (tx : AggregatedTx) : Decidable (InboundSymbolMissing tx) := by
  unfold InboundSymbolMissing
  infer_instance

instance (tx : AggregatedTx) (walletAddress : String) :
    Decidable (FromNullToWallet tx walletAddress) := by
  unfold FromNullToWallet
  infer_instance

/-- USDC inbound leg used by the concrete classifier inputs. -/
def usdcInTransfer : AlchemyTransfer :=
  { blockNum := "0x10", hash := "0xh1", fromAddr := "0xAA", toAddr := some "0xme"
  , value := some 5, asset := some "USDC", category := "erc20"
  , rawContract := { address := some "0xusdc", decimal := some "6", value := none }
  , metadata := { blockTimestamp := "2024-01-01T00:00:00.000Z" } }

/-- DAI outbound leg used by the concrete classifier inputs. -/
def daiOutTransfer : AlchemyTransfer :=
  { blockNum := "0x10", hash := "0xh1", fromAddr := "0xME", toAddr := some "0xaa"
  , value := some 3, asset := some "DAI", category := "erc20"
  , rawContract := { address := some "0xdai", decimal := some "18", value := none }
  , metadata := { blockTimestamp := "2024-01-01T00:00:00.000Z" } }

/-- An ERC-721 inbound transfer with no numeric value. -/
def nftInTransfer : AlchemyTransfer :=
  { blockNum := "0x10", hash := "0xh1", fromAddr := "0xAA", toAddr := some "0xme"
  , value := none, asset := none, category := "erc721"
  , rawContract := { address := some "0xnft", decimal := none, value := some "0x1" }
  , metadata := { blockTimestamp := "2024-01-01T00:00:00.000Z" } }

/-- Aggregated transaction with distinct in/out symbols (USDC in, DAI out)
that also contains an NFT transfer, so `hasNft` is set. -/
def swapWithNftTx : AggregatedTx :=
  { hash := "0xh1", blockNum := "0x10", timestamp := "2024-01-01T00:00:00.000Z"
  , transfers := [usdcInTransfer, daiOutTransfer, nftInTransfer]
  , tokensIn := [{ address := some "0xusdc", symbol := some "USDC", amount := 5 }]
  , tokensOut := [{ address := some "0xdai", symbol := some "DAI", amount := 3 }]
  , hasNft := true, nftMint := false, isInternal := false
  , contractInteraction := true }

/-- The same USDC-in / DAI-out group without the NFT transfer. -/
def usdcDaiSwapTx : AggregatedTx :=
  { hash := "0xh1", blockNum := "0x10", timestamp := "2024-01-01T00:00:00.000Z"
  , transfers := [usdcInTransfer, daiOutTransfer]
  , tokensIn := [{ address := some "0xusdc", symbol := some "USDC", amount := 5 }]
  , tokensOut := [{ address := some "0xdai", symbol := some "DAI", amount := 3 }]
  , hasNft := false, nftMint := false, isInternal := false
  , contractInteraction := true }

/-- A single ERC-20 transfer from the null address to the wallet. -/
def nullAirdropTransfer : AlchemyTransfer :=
  { blockNum := "0x11", hash := "0xh2"
  , fromAddr := "0x0000000000000000000000000000000000000000"
  , toAddr := some "0xme"
  , value := some 100, asset := some "ARB", category := "erc20"
  , rawContract := { address := some "0xarb", decimal := some "18", value := none }
  , metadata := { blockTimestamp := "2024-02-01T00:00:00.000Z" } }

/-- The inbound-only single-transfer group for that airdrop. -/
def singleAirdropTx : AggregatedTx :=
  { hash := "0xh2", blockNum := "0x11", timestamp := "2024-02-01T00:00:00.000Z"
  , transfers := [nullAirdropTransfer]
  , tokensIn := [{ address := some "0xarb", symbol := some "ARB", amount := 100 }]
  , tokensOut := []
  , hasNft := false, nftMint := false, isInternal := false
  , contractInteraction := true }

/-- A second transfer from the null address with the same hash. -/
def nullAirdropTransfer2 : AlchemyTransfer :=
  { nullAirdropTransfer with value := some 40 }

/-- A two-transfer inbound-only airdrop group. -/
def doubleAirdropTx : AggregatedTx :=
  { hash := "0xh2", blockNum := "0x11", timestamp := "2024-02-01T00:00:00.000Z"
  , transfers := [nullAirdropTransfer, nullAirdropTransfer2]
  , tokensIn :=
      [{ address := some "0xarb", symbol := some "ARB", amount := 100 }
      , { address := some "0xarb", symbol := some "ARB", amount := 40 }]
  , tokensOut := []
  , hasNft := false, nftMint := false, isInternal := false
  , contractInteraction := true }

/-- The invariant relating `userClassified`, `needsReview` and
`classificationConfidence` on persisted transactions. -/
def TxInvariant (db : DB) : Prop :=
  ∀ t ∈ db.transactions, t.userClassified = true →
    t.needsReview = false ∧ t.classificationConfidence = "1.0"

instance (db : DB) : Decidable (TxInvariant db) := by
  unfold TxInvariant
  infer_instance

/-- A wallet, a heuristically classified transaction and one income
transaction used as concrete storage states. -/
def wallet1 : Wallet :=
  { id := "w1", userId := "u1", address := "0xme", chain := "ethereum" }

def reviewTx1 : Transaction :=
  { id := "t1", walletId := "w1", txHash := "0xh1", chain := "ethereum"
  , timestamp := 1704067200000, classification := "unknown"
  , classificationConfidence := "0.0", needsReview := true
  , userClassified := false, valueUsd := none }

def db1 : DB :=
  { wallets := [wallet1], transactions := [reviewTx1], taxLots := [], disposals := [] }

/-- Sum of `f` over a list (the running `+=` totals of the report code). -/
def sumBy {α : Type} (l : List α) (f : α → Int) : Int := (l.map f).sum

/-- One tax lot and three disposals (short gain and long loss inside 2024,
one disposal outside the year) for the concrete report state. -/
def lot1 : TaxLot :=
  { id := "lot1", walletId := "w1", token := "0xeth", amount := 2
  , remainingAmount := 0, costBasisUsd := 200000
  , acquiredAt := jsDateYearStart 2023 }

def shortGain2024 : Disposal :=
  { id := "d1", taxLotId := "lot1", token := "0xeth", amount := 1
  , proceedsUsd := 360000, costBasisUsd := 320000, gainLossUsd := 40000
  , isShortTerm := true, disposedAt := jsDateYearStart 2024 + 86400000 }

def longLoss2024 : Disposal :=
  { id := "d2", taxLotId := "lot1", token := "0xeth", amount := 1
  , proceedsUsd := 100000, costBasisUsd := 110000, gainLossUsd := -10000
  , isShortTerm := false, disposedAt := jsDateYearStart 2024 + 2 * 86400000 }

def gain2023 : Disposal :=
  { id := "d3", taxLotId := "lot1", token := "0xeth", amount := 1
  , proceedsUsd := 200000, costBasisUsd := 100001, gainLossUsd := 99999
  , isShortTerm := true, disposedAt := jsDateYearStart 2023 + 86400000 }

def taxDb : DB :=
  { wallets := [wallet1], transactions := [reviewTx1]
  , taxLots := [lot1], disposals := [shortGain2024, longLoss2024, gain2023] }

/-- A disposal on January 2, 1950 — inside the window the program applies
for the two-digit target year 50. -/
def shortGain1950 : Disposal :=
  { id := "d4", taxLotId := "lot1", token := "0xeth", amount := 1
  , proceedsUsd := 100, costBasisUsd := 50, gainLossUsd := 50
  , isShortTerm := true, disposedAt := civilYearStart 1950 + 86400000 }

/-- Store holding only the 1950 disposal. -/
def cexDb50 : DB :=
  { wallets := [wallet1], transactions := []
  , taxLots := [lot1], disposals := [shortGain1950] }

/-- A reward transaction on January 2, 1950. -/
def rewardTx1950 : Transaction :=
  { id := "t3", walletId := "w1", txHash := "0xh3", chain := "ethereum"
  , timestamp := civilYearStart 1950 + 86400000, classification := "reward"
  , classificationConfidence := "0.6", needsReview := false
  , userClassified := false, valueUsd := some 7000 }

/-- Store holding only the 1950 reward transaction. -/
def incomeCexDb : DB :=
  { wallets := [wallet1], transactions := [rewardTx1950]
  , taxLots := [], disposals := [] }

/-- A reward transaction on January 2, 2024. -/
def rewardTx2024 : Transaction :=
  { id := "t4", walletId := "w1", txHash := "0xh4", chain := "ethereum"
  , timestamp := civilYearStart 2024 + 86400000, classification := "reward"
  , classificationConfidence := "0.6", needsReview := false
  , userClassified := false, valueUsd := some 5000 }

/-- Store with one income transaction in 2024 (and one non-income row). -/
def incomeDb : DB :=
  { taxDb with transactions := [reviewTx1, rewardTx2024] }

/-- The transactions on the user's wallets. -/
def userTxs (db : DB) (userId : String) : List Transaction :=
  db.transactions.filter fun t => (userWalletIds db userId).contains t.walletId

/-- At most one persisted transaction per (user, tx hash): pairwise distinct
hashes among the user's transactions. -/
def UserHashUnique (db : DB) (userId : String) : Prop :=
  (userTxs db userId).Pairwise fun a b => a.txHash ≠ b.txHash

instance (db : DB) (userId : String) : Decidable (UserHashUnique db userId) := by
  unfold UserHashUnique
  infer_instance

/-- Two rows to sync: a fresh hash and a duplicate of the stored `0xh1`. -/
def insertNew : InsertTransaction :=
  { walletId := "w1", txHash := "0xh2", chain := "ethereum"
  , timestamp := 1704070000000, tokenIn := none, tokenInSymbol := none
  , tokenOut := none, tokenOutSymbol := none, classification := "transfer"
  , classificationConfidence := "0.9", needsReview := false
  , userClassified := false, contractAddress := none, valueUsd := some 1000
  , isSpam := false, isDust := false }

def insertDup : InsertTransaction := { insertNew with txHash := "0xh1" }

/-- First-occurrence deduplication: the key order of a JS `Map` built by
insertion. -/
def firstDedup (l : List String) : List String :=
  l.foldl (fun acc h => if h ∈ acc then acc else acc ++ [h]) []

/-- The group a hash accumulates over a transfer list: the first matching
transfer creates the entry, later ones mutate it (the `[]` case is
unreachable for hashes that occur in the list). -/
def mkGroup (wallet h : String) (ts : List AlchemyTransfer) : AggregatedTx :=
  match ts.filter (fun t => t.hash == h) with
  | [] => newAggTx wallet default
  | t0 :: rest => rest.foldl (addTransfer wallet) (newAggTx wallet t0)

/-- Two strings equal up to (ASCII) letter case. -/
def caseEq (s s' : String) : Prop := jsToLower s = jsToLower s'

/-- Two transfers that differ only in the letter case of their from/to
addresses. -/
def transferCaseEq (t t' : AlchemyTransfer) : Prop :=
  t.blockNum = t'.blockNum ∧ t.hash = t'.hash ∧
  caseEq t.fromAddr t'.fromAddr ∧ lowOpt t.toAddr = lowOpt t'.toAddr ∧
  t.value = t'.value ∧ t.asset = t'.asset ∧ t.category = t'.category ∧
  t.rawContract = t'.rawContract ∧ t.metadata = t'.metadata

/-- Two aggregated transactions that differ only in the letter case of
their transfers' from/to addresses. -/
def txCaseEq (tx tx' : AggregatedTx) : Prop :=
  tx.hash = tx'.hash ∧ tx.blockNum = tx'.blockNum ∧
  tx.timestamp = tx'.timestamp ∧
  List.Forall₂ transferCaseEq tx.transfers tx'.transfers ∧
  tx.tokensIn = tx'.tokensIn ∧ tx.tokensOut = tx'.tokensOut ∧
  tx.hasNft = tx'.hasNft ∧ tx.nftMint = tx'.nftMint ∧
  tx.isInternal = tx'.isInternal ∧ tx.contractInteraction = tx'.contractInteraction

instance (s s' : String) : Decidable (caseEq s s') := by
  unfold caseEq
  infer_instance

instance (t t' : AlchemyTransfer) : Decidable (transferCaseEq t t') := by
  unfold transferCaseEq
  infer_instance

instance (tx tx' : AggregatedTx) : Decidable (txCaseEq tx tx') := by
  unfold txCaseEq
  infer_instance

/-- The single-transfer airdrop group with the recipient address
uppercased. -/
def upperAirdropTransfer : AlchemyTransfer :=
  { nullAirdropTransfer with toAddr := some "0xME" }

def upperAirdropTx : AggregatedTx :=
  { singleAirdropTx with transfers := [upperAirdropTransfer] }

lemma classifyRest_mem (tx : AggregatedTx) (w : String) :
    classifyRest tx w ∈ classificationLabels := by
  unfold classifyRest
  repeat' split
  all_goals simp [classificationLabels]

lemma classify_mem (tx : AggregatedTx) (w : String) :
    classifyAggregatedTx tx w ∈ classificationLabels := by
  unfold classifyAggregatedTx
  repeat' split
  all_goals first
    | exact classifyRest_mem _ _
    | simp [classificationLabels]

lemma confidence_bounded (l : String) (hl : l ∈ classificationLabels) :
    ∃ q : ℚ, parseDecimal (getConfidence l) = some q ∧ 0 ≤ q ∧ q ≤ 1 := by
  have ev : ∀ s : String, ∀ q : ℚ, parseDecimal s = some q → 0 ≤ q → q ≤ 1 →
      ∃ q' : ℚ, parseDecimal s = some q' ∧ 0 ≤ q' ∧ q' ≤ 1 :=
    fun _ q h h0 h1 => ⟨q, h, h0, h1⟩
  fin_cases hl
  · exact ev _ (95/100)
      (by simp [getConfidence, parseDecimal, splitDot, digitsVal, charDigit]
          norm_num)
      (by norm_num) (by norm_num)
  · exact ev _ (9/10)
      (by simp [getConfidence, parseDecimal, splitDot, digitsVal, charDigit])
      (by norm_num) (by norm_num)
  · exact ev _ (9/10)
      (by simp [getConfidence, parseDecimal, splitDot, digitsVal, charDigit])
      (by norm_num) (by norm_num)
  · exact ev _ (7/10)
      (by simp [getConfidence, parseDecimal, splitDot, digitsVal, charDigit])
      (by norm_num) (by norm_num)
  · exact ev _ (8/10)
      (by simp [getConfidence, parseDecimal, splitDot, digitsVal, charDigit])
      (by norm_num) (by norm_num)
  · exact ev _ (7/10)
      (by simp [getConfidence, parseDecimal, splitDot, digitsVal, charDigit])
      (by norm_num) (by norm_num)
  · exact ev _ (6/10)
      (by simp [getConfidence, parseDecimal, splitDot, digitsVal, charDigit])
      (by norm_num) (by norm_num)
  · exact ev _ 0
      (by simp [getConfidence, parseDecimal, splitDot, digitsVal, charDigit])
      (by norm_num) (by norm_num)
  · exact ev _ 0
      (by simp [getConfidence, parseDecimal, splitDot, digitsVal, charDigit])
      (by norm_num) (by norm_num)

/-- C3: `needsReview` is true exactly for the labels `unknown` and
`contract_interaction`, and the stored flag on a freshly built transaction
row is `shouldNeedReview` of its classification, independent of the numeric
confidence. -/
theorem needsReview_iff_uncertain_label :
    (∀ label : String,
      shouldNeedReview label = true ↔
        (label = "unknown" ∨ label = "contract_interaction")) ∧
    (∀ jsDate walletAddress chain walletId tx,
      (buildInsertTx jsDate walletAddress chain walletId tx).needsReview =
        shouldNeedReview (classifyAggregatedTx tx walletAddress)) := by
  constructor
  · intro label
    simp [shouldNeedReview]
  · intro jsDate walletAddress chain walletId tx
    rfl

/-- C4: the classifier is total — every aggregated transaction gets exactly
one label from the fixed set, and the confidence attached to it is a decimal
in [0,1], with the specific value fixed per label. -/
theorem classifier_totality (tx : AggregatedTx) (w : String) :
    classifyAggregatedTx tx w ∈ classificationLabels ∧
    (∃ q : ℚ,
      parseDecimal (getConfidence (classifyAggregatedTx tx w)) = some q ∧
      0 ≤ q ∧ q ≤ 1) ∧
    parseDecimal (getConfidence "self_transfer") = some (95/100) ∧
    parseDecimal (getConfidence "transfer") = some (9/10) ∧
    parseDecimal (getConfidence "nft_mint") = some (9/10) ∧
    parseDecimal (getConfidence "swap") = some (8/10) ∧
    parseDecimal (getConfidence "airdrop") = some (7/10) ∧
    parseDecimal (getConfidence "nft_sale") = some (7/10) ∧
    parseDecimal (getConfidence "reward") = some (6/10) ∧
    parseDecimal (getConfidence "unknown") = some 0 ∧
    parseDecimal (getConfidence "contract_interaction") = some 0 := by
  refine ⟨classify_mem tx w, confidence_bounded _ (classify_mem tx w), ?_⟩
  refine ⟨?_, ?_, ?_, ?_, ?_, ?_, ?_, ?_, ?_⟩
  all_goals simp [getConfidence, parseDecimal, splitDot, digitsVal, charDigit]
  all_goals norm_num

lemma router_iff (tx : AggregatedTx) :
    interactedWithDexB tx = true ↔ RouterInvolved tx := by
  have hempty : ("" : String) ∉ KNOWN_DEX_ROUTERS := by decide
  simp only [interactedWithDexB, RouterInvolved, List.any_eq_true,
    Bool.or_eq_true, List.elem_iff]
  refine exists_congr fun t => and_congr_right fun _ =>
    or_congr (by simp [List.elem_iff]) ?_
  cases h : t.toAddr with
  | none => simp [lowOpt, h, hempty, List.elem_iff]
  | some a => simp [lowOpt, h, List.elem_iff]

lemma fromNull_iff (tx : AggregatedTx) (w : String) :
    fromNullAddrB tx (jsToLower w) = true ↔ FromNullToWallet tx w := by
  simp only [fromNullAddrB, FromNullToWallet, List.any_eq_true,
    Bool.and_eq_true, beq_iff_eq]
  refine exists_congr fun t => and_congr_right fun _ => and_congr Iff.rfl ?_
  cases h : t.toAddr with
  | none => simp [lowOpt, h]
  | some a => simp [lowOpt, h]

lemma mem_inSymbolsOf (tx : AggregatedTx) (x : String) :
    x ∈ inSymbolsOf tx ↔
      x ≠ "" ∧ ∃ l ∈ tx.tokensIn, ∃ s, l.symbol = some s ∧ jsToLower s = x := by
  simp only [inSymbolsOf, List.mem_filter, List.mem_filterMap, Option.map_eq_some',
    decide_eq_true_eq]
  tauto

lemma mem_outSymbolsOf (tx : AggregatedTx) (x : String) :
    x ∈ outSymbolsOf tx ↔
      x ≠ "" ∧ ∃ l ∈ tx.tokensOut, ∃ s, l.symbol = some s ∧ jsToLower s = x := by
  simp only [outSymbolsOf, List.mem_filter, List.mem_filterMap, Option.map_eq_some',
    decide_eq_true_eq]
  tauto

lemma hasDistinct_iff (tx : AggregatedTx) :
    hasDistinctTokensB tx = true ↔ InboundSymbolMissing tx := by
  have h1 : hasDistinctTokensB tx = true ↔
      ((∃ x, x ∈ inSymbolsOf tx) ∧ (∃ x, x ∈ outSymbolsOf tx)) ∧
        ∃ x ∈ inSymbolsOf tx, x ∉ outSymbolsOf tx := by
    simp [hasDistinctTokensB, List.any_eq_true, List.length_pos_iff_exists_mem,
      List.elem_iff]
  rw [h1]
  constructor
  · rintro ⟨⟨-, hxout⟩, x, hx, hxnot⟩
    obtain ⟨hne, l, hl, s, hs, hsx⟩ := (mem_inSymbolsOf tx x).mp hx
    obtain ⟨xo, hxo⟩ := hxout
    obtain ⟨hneo, lo, hlo, so, hso, hsoo⟩ := (mem_outSymbolsOf tx xo).mp hxo
    subst hsx
    refine ⟨⟨lo, hlo, so, hso, hsoo ▸ hneo⟩, l, hl, s, hs, hne, ?_⟩
    intro l' hl' s' hs' heq
    exact hxnot ((mem_outSymbolsOf tx _).mpr ⟨heq ▸ hne, l', hl', s', hs', heq⟩)
  · rintro ⟨⟨lo, hlo, so, hso, hsone⟩, l, hl, s, hs, hne, hforall⟩
    have hinm : jsToLower s ∈ inSymbolsOf tx :=
      (mem_inSymbolsOf tx _).mpr ⟨hne, l, hl, s, hs, rfl⟩
    have houtm : jsToLower so ∈ outSymbolsOf tx :=
      (mem_outSymbolsOf tx _).mpr ⟨hsone, lo, hlo, so, hso, rfl⟩
    refine ⟨⟨⟨_, hinm⟩, ⟨_, houtm⟩⟩, jsToLower s, hinm, ?_⟩
    intro hmem
    obtain ⟨-, l', hl', s', hs', heq⟩ := (mem_outSymbolsOf tx _).mp hmem
    exact hforall l' hl' s' hs' heq

lemma classify_of_not_single (tx : AggregatedTx) (w : String)
    (h : tx.transfers.length ≠ 1) :
    classifyAggregatedTx tx w = classifyRest tx (jsToLower w) := by
  unfold classifyAggregatedTx
  split
  · rename_i t heq
    rw [heq] at h
    simp at h
  · rfl

/-- C1 (amended): for an aggregated transaction that has inbound and
outbound legs, is not a single-transfer group and is not flagged as NFT,
classify returns `swap` iff some inbound symbol is missing from the
(nonempty) outbound symbol set or a known DEX router appears on some
transfer; otherwise it returns `transfer`. Confidences 0.8 / 0.9. -/
theorem swap_rule_guarded (tx : AggregatedTx) (w : String)
    (hlen : tx.transfers.length ≠ 1) (hnft : tx.hasNft = false)
    (hin : tx.tokensIn ≠ []) (hout : tx.tokensOut ≠ []) :
    (classifyAggregatedTx tx w = "swap" ↔
      InboundSymbolMissing tx ∨ RouterInvolved tx) ∧
    (¬(InboundSymbolMissing tx ∨ RouterInvolved tx) →
      classifyAggregatedTx tx w = "transfer") ∧
    getConfidence "swap" = "0.8" ∧ getConfidence "transfer" = "0.9" := by
  have hhin : hasInB tx = true := by
    simp only [hasInB, decide_eq_true_eq, List.length_pos]
    exact hin
  have hhout : hasOutB tx = true := by
    simp only [hasOutB, decide_eq_true_eq, List.length_pos]
    exact hout
  rw [classify_of_not_single tx w hlen]
  rw [show classifyRest tx (jsToLower w) =
      (if hasDistinctTokensB tx then "swap"
       else if interactedWithDexB tx then "swap" else "transfer") from by
    unfold classifyRest
    rw [hnft, hhin, hhout]
    simp]
  refine ⟨?_, ?_, rfl, rfl⟩
  · by_cases hd : hasDistinctTokensB tx = true
    · simp only [hd, if_true]
      exact iff_of_true trivial (Or.inl ((hasDistinct_iff tx).mp hd))
    · by_cases hr : interactedWithDexB tx = true
      · simp only [hd, hr]
        simp only [Bool.false_eq_true, if_false, if_true]
        exact iff_of_true trivial (Or.inr ((router_iff tx).mp hr))
      · simp only [hd, hr]
        simp only [Bool.false_eq_true, if_false]
        refine iff_of_false (by simp) ?_
        rintro (hA | hB)
        · exact hd ((hasDistinct_iff tx).mpr hA)
        · exact hr ((router_iff tx).mpr hB)
  · intro hnot
    have hd : ¬ hasDistinctTokensB tx = true :=
      fun h => hnot (Or.inl ((hasDistinct_iff tx).mp h))
    have hr : ¬ interactedWithDexB tx = true :=
      fun h => hnot (Or.inr ((router_iff tx).mp h))
    simp [hd, hr]

/-- C2 (amended): for an inbound-only aggregated transaction that is not a
single-transfer group and is not flagged as NFT: from the null address to
the wallet → `airdrop` (0.7); otherwise internal → `reward` (0.6);
otherwise → `transfer` (0.9). -/
theorem airdrop_reward_rule_guarded (tx : AggregatedTx) (w : String)
    (hlen : tx.transfers.length ≠ 1) (hnft : tx.hasNft = false)
    (hin : tx.tokensIn ≠ []) (hout : tx.tokensOut = []) :
    (FromNullToWallet tx w → classifyAggregatedTx tx w = "airdrop") ∧
    (¬FromNullToWallet tx w → tx.isInternal = true →
      classifyAggregatedTx tx w = "reward") ∧
    (¬FromNullToWallet tx w → tx.isInternal = false →
      classifyAggregatedTx tx w = "transfer") ∧
    getConfidence "airdrop" = "0.7" ∧ getConfidence "reward" = "0.6" ∧
    getConfidence "transfer" = "0.9" := by
  have hhin : hasInB tx = true := by
    simp only [hasInB, decide_eq_true_eq, List.length_pos]
    exact hin
  have hhout : hasOutB tx = false := by
    simp [hasOutB, hout]
  rw [classify_of_not_single tx w hlen]
  rw [show classifyRest tx (jsToLower w) =
      (if fromNullAddrB tx (jsToLower w) then "airdrop"
       else if tx.isInternal then "reward" else "transfer") from by
    unfold classifyRest
    rw [hnft, hhin, hhout]
    simp]
  refine ⟨?_, ?_, ?_, rfl, rfl, rfl⟩
  · intro hF
    simp [(fromNull_iff tx w).mpr hF]
  · intro hF hI
    have : ¬ fromNullAddrB tx (jsToLower w) = true :=
      fun h => hF ((fromNull_iff tx w).mp h)
    simp [this, hI]
  · intro hF hI
    have : ¬ fromNullAddrB tx (jsToLower w) = true :=
      fun h => hF ((fromNull_iff tx w).mp h)
    simp [this, hI]

/-- C1 (counterexample): an aggregated transaction with inbound and
outbound legs whose inbound symbol (USDC) is absent from the outbound set
({DAI}) is nevertheless not classified `swap`: the NFT branch precedes the
swap branch and returns `nft_sale`. -/
theorem swap_claim_counterexample :
    hasInB swapWithNftTx = true ∧ hasOutB swapWithNftTx = true ∧
    InboundSymbolMissing swapWithNftTx ∧
    classifyAggregatedTx swapWithNftTx "0xME" = "nft_sale" ∧
    classifyAggregatedTx swapWithNftTx "0xME" ≠ "swap" := by decide

/-- C1 witness: the guarded swap rule applied at a concrete two-transfer
USDC-in / DAI-out group yields `swap`. -/
theorem swap_rule_guarded_witness :
    classifyAggregatedTx usdcDaiSwapTx "0xME" = "swap" ∧
    getConfidence "swap" = "0.8" :=
  ⟨(swap_rule_guarded usdcDaiSwapTx "0xME" (by decide) (by decide) (by decide)
      (by decide)).1.mpr (Or.inl (by decide)),
   (swap_rule_guarded usdcDaiSwapTx "0xME" (by decide) (by decide) (by decide)
      (by decide)).2.2.1⟩

/-- C2 (counterexample): an inbound-only group whose only transfer comes
from the null address to the wallet is classified `transfer`, not
`airdrop`: the single-transfer early return precedes the airdrop branch. -/
theorem airdrop_claim_counterexample :
    hasInB singleAirdropTx = true ∧ singleAirdropTx.tokensOut = [] ∧
    FromNullToWallet singleAirdropTx "0xME" ∧
    classifyAggregatedTx singleAirdropTx "0xME" = "transfer" ∧
    classifyAggregatedTx singleAirdropTx "0xME" ≠ "airdrop" := by decide

/-- C2 witness: the guarded airdrop rule applied at a concrete two-transfer
null-address group yields `airdrop`. -/
theorem airdrop_reward_rule_guarded_witness :
    classifyAggregatedTx doubleAirdropTx "0xME" = "airdrop" ∧
    getConfidence "airdrop" = "0.7" :=
  ⟨(airdrop_reward_rule_guarded doubleAirdropTx "0xME" (by decide) (by decide)
      (by decide) (by decide)).1 (by decide),
   (airdrop_reward_rule_guarded doubleAirdropTx "0xME" (by decide) (by decide)
      (by decide) (by decide)).2.2.2.1⟩

/-- C5: manual reclassification unconditionally sets `needsReview := false`,
`userClassified := true`, confidence `"1.0"`; it preserves the invariant
`userClassified → ¬needsReview ∧ confidence = "1.0"` over the whole store;
and rows built during sync start with `userClassified = false`. -/
theorem classifyTransaction_user_override (db : DB)
    (id classification userId : String) (hinv : TxInvariant db) :
    TxInvariant (classifyTransaction db id classification userId).1 ∧
    (∀ t, (classifyTransaction db id classification userId).2 = some t →
      t.needsReview = false ∧ t.userClassified = true ∧
      t.classificationConfidence = "1.0") ∧
    (∀ jsDate walletAddress chain walletId tx,
      (buildInsertTx jsDate walletAddress chain walletId tx).userClassified = false) := by
  unfold classifyTransaction
  cases hg : getTransaction db id userId with
  | none =>
    refine ⟨hinv, ?_, fun _ _ _ _ _ => rfl⟩
    intro t ht
    simp at ht
  | some t0 =>
    refine ⟨?_, ?_, fun _ _ _ _ _ => rfl⟩
    · intro t ht htu
      obtain ⟨a, ha, rfl⟩ := List.mem_map.mp ht
      by_cases hid : (a.id == id) = true
      · simp [hid]
      · simp only [hid, Bool.false_eq_true, if_false] at htu ⊢
        exact hinv a ha htu
    · intro t hfind
      have hmem := List.mem_of_find?_eq_some hfind
      have hpred := List.find?_some hfind
      obtain ⟨a, ha, heq⟩ := List.mem_map.mp hmem
      by_cases hid : (a.id == id) = true
      · rw [if_pos hid] at heq
        subst heq
        simp
      · rw [if_neg hid] at heq
        subst heq
        exact absurd hpred hid

/-- C5 witness: reclassifying the concrete needs-review transaction. -/
theorem classifyTransaction_user_override_witness :
    TxInvariant (classifyTransaction db1 "t1" "airdrop" "u1").1 ∧
    (∀ t, (classifyTransaction db1 "t1" "airdrop" "u1").2 = some t →
      t.needsReview = false ∧ t.userClassified = true ∧
      t.classificationConfidence = "1.0") ∧
    (∀ jsDate walletAddress chain walletId tx,
      (buildInsertTx jsDate walletAddress chain walletId tx).userClassified = false) :=
  classifyTransaction_user_override db1 "t1" "airdrop" "u1" (by decide)

lemma sumBy_perm {α : Type} {l l' : List α} (h : l.Perm l') (f : α → Int) :
    sumBy l f = sumBy l' f := (h.map f).sum_eq

lemma addValueUsd_fold (l : List Transaction) (s : Int) :
    l.foldl addValueUsd s = s + sumBy l (fun t => t.valueUsd.getD 0) := by
  induction l generalizing s with
  | nil => simp [sumBy]
  | cons t ts ih =>
    rw [List.foldl_cons, ih]
    cases h : t.valueUsd with
    | none => simp [addValueUsd, h, sumBy]
    | some v =>
      simp [addValueUsd, h, sumBy]
      ring

lemma gainLoss_fold (l : List Disposal) (acc : Int × Int × Int × Int) :
    l.foldl gainLossStep acc =
      (acc.1 + sumBy (l.filter fun d => d.isShortTerm && decide (0 ≤ d.gainLossUsd))
        (·.gainLossUsd),
       acc.2.1 + sumBy (l.filter fun d => d.isShortTerm && decide (d.gainLossUsd < 0))
        (fun d => |d.gainLossUsd|),
       acc.2.2.1 + sumBy (l.filter fun d => !d.isShortTerm && decide (0 ≤ d.gainLossUsd))
        (·.gainLossUsd),
       acc.2.2.2 + sumBy (l.filter fun d => !d.isShortTerm && decide (d.gainLossUsd < 0))
        (fun d => |d.gainLossUsd|)) := by
  induction l generalizing acc with
  | nil => simp [sumBy]
  | cons d t ih =>
    rw [List.foldl_cons, ih]
    by_cases hS : d.isShortTerm = true <;> by_cases hG : 0 ≤ d.gainLossUsd
    · have hG' : ¬(d.gainLossUsd < 0) := not_lt.mpr hG
      simp [gainLossStep, hS, hG, hG', sumBy, List.filter_cons]
      ring
    · have hG' : d.gainLossUsd < 0 := not_le.mp hG
      simp [gainLossStep, hS, hG, hG', sumBy, List.filter_cons]
      ring
    · have hG' : ¬(d.gainLossUsd < 0) := not_lt.mpr hG
      simp [gainLossStep, hS, hG, hG', sumBy, List.filter_cons]
      ring
    · have hG' : d.gainLossUsd < 0 := not_le.mp hG
      simp [gainLossStep, hS, hG, hG', sumBy, List.filter_cons]
      ring

lemma getDisposals_perm (db : DB) (year : Int) (userId : String) (hy : year ≠ 0) :
    (getDisposals db year userId).Perm
      (db.disposals.filter fun d =>
        disposalDateOk year d && (userTaxLotIds db userId).contains d.taxLotId) := by
  unfold getDisposals
  by_cases h1 : (userWalletIds db userId).isEmpty
  · rw [if_pos h1]
    have hw : userWalletIds db userId = [] := List.isEmpty_iff.mp h1
    have hlots : userTaxLotIds db userId = [] := by
      unfold userTaxLotIds
      simp [hw]
    simp [hlots]
  · rw [if_neg h1]
    by_cases h2 : (userTaxLotIds db userId).isEmpty
    · rw [if_pos h2]
      have h2' : userTaxLotIds db userId = [] := List.isEmpty_iff.mp h2
      simp [h2']
    · rw [if_neg h2]
      have hpred : (fun d => (if year ≠ 0 then disposalDateOk year d else true) &&
          (userTaxLotIds db userId).contains d.taxLotId)
          = fun d => disposalDateOk year d &&
              (userTaxLotIds db userId).contains d.taxLotId := by
        funext d
        rw [if_pos hy]
      rw [hpred]
      exact List.mergeSort_perm _ _

lemma jsDateYearStart_eq_civil (year : Int) (h : 100 ≤ year) :
    jsDateYearStart year = civilYearStart year := by
  unfold jsDateYearStart
  rw [if_neg (by omega)]

lemma disposalDateOk_eq_inCivilYear (year : Int) (h : 100 ≤ year) :
    disposalDateOk year = inCivilYear year := by
  funext d
  unfold disposalDateOk inCivilYear
  rw [jsDateYearStart_eq_civil year (by omega),
    jsDateYearStart_eq_civil (year + 1) (by omega)]

lemma isIncomeTxB_eq_civil (db : DB) (year : Int) (userId : String)
    (h : 100 ≤ year) :
    isIncomeTxB db year userId = isIncomeTxCivil db year userId := by
  funext t
  unfold isIncomeTxB isIncomeTxCivil
  rw [jsDateYearStart_eq_civil year (by omega),
    jsDateYearStart_eq_civil (year + 1) (by omega)]

/-- C6 (counterexample): for the reachable two-digit target year 50, the
program applies the ECMAScript-mapped window [Jan 1 1950, Jan 1 1951)
(`new Date(50,0,1)` is 1950): a 1950 disposal is summed into the year-50
report even though no disposal lies in [Jan 1 of year 50, Jan 1 of
year 51). -/
theorem report_year_claim_counterexample :
    (getReportSummary cexDb50 50 "u1").shortTermGains = 50 ∧
    cexDb50.disposals.filter (fun d => inCivilYear 50 d &&
      (userTaxLotIds cexDb50 "u1").contains d.taxLotId) = [] := by
  constructor
  · have hperm := getDisposals_perm cexDb50 50 "u1" (by decide)
    have hfold := gainLoss_fold (getDisposals cexDb50 50 "u1") (0, 0, 0, 0)
    show ((getDisposals cexDb50 50 "u1").foldl gainLossStep (0, 0, 0, 0)).1 = 50
    rw [hfold]
    rw [sumBy_perm (hperm.filter
      (fun d => d.isShortTerm && decide (0 ≤ d.gainLossUsd))) (·.gainLossUsd)]
    decide
  · decide

/-- C6 (amended): for a target year of at least 100 (two-digit year
arguments are remapped by the ECMAScript `Date` rule), the report's four
totals are the sums of `gainLossUsd` over exactly the user's disposals
disposed within [Jan 1 year, Jan 1 next year), bucketed by `isShortTerm`
and by sign (losses as absolute values), and `netGainLoss` is
`(shortTermGains - shortTermLosses) + (longTermGains - longTermLosses)`. -/
theorem report_year_bucketing (db : DB) (year : Int) (userId : String)
    (hy : 100 ≤ year) :
    (getReportSummary db year userId).shortTermGains =
      sumBy ((db.disposals.filter fun d =>
          inCivilYear year d && (userTaxLotIds db userId).contains d.taxLotId).filter
        fun d => d.isShortTerm && decide (0 ≤ d.gainLossUsd)) (·.gainLossUsd) ∧
    (getReportSummary db year userId).shortTermLosses =
      sumBy ((db.disposals.filter fun d =>
          inCivilYear year d && (userTaxLotIds db userId).contains d.taxLotId).filter
        fun d => d.isShortTerm && decide (d.gainLossUsd < 0)) (fun d => |d.gainLossUsd|) ∧
    (getReportSummary db year userId).longTermGains =
      sumBy ((db.disposals.filter fun d =>
          inCivilYear year d && (userTaxLotIds db userId).contains d.taxLotId).filter
        fun d => !d.isShortTerm && decide (0 ≤ d.gainLossUsd)) (·.gainLossUsd) ∧
    (getReportSummary db year userId).longTermLosses =
      sumBy ((db.disposals.filter fun d =>
          inCivilYear year d && (userTaxLotIds db userId).contains d.taxLotId).filter
        fun d => !d.isShortTerm && decide (d.gainLossUsd < 0)) (fun d => |d.gainLossUsd|) ∧
    (getReportSummary db year userId).netGainLoss =
      ((getReportSummary db year userId).shortTermGains -
        (getReportSummary db year userId).shortTermLosses) +
      ((getReportSummary db year userId).longTermGains -
        (getReportSummary db year userId).longTermLosses) := by
  have hperm := getDisposals_perm db year userId (by omega)
  rw [disposalDateOk_eq_inCivilYear year hy] at hperm
  have hfold := gainLoss_fold (getDisposals db year userId) (0, 0, 0, 0)
  refine ⟨?_, ?_, ?_, ?_, rfl⟩
  · show ((getDisposals db year userId).foldl gainLossStep (0, 0, 0, 0)).1 = _
    rw [hfold]
    simpa using sumBy_perm (hperm.filter _) _
  · show ((getDisposals db year userId).foldl gainLossStep (0, 0, 0, 0)).2.1 = _
    rw [hfold]
    simpa using sumBy_perm (hperm.filter _) _
  · show ((getDisposals db year userId).foldl gainLossStep (0, 0, 0, 0)).2.2.1 = _
    rw [hfold]
    simpa using sumBy_perm (hperm.filter _) _
  · show ((getDisposals db year userId).foldl gainLossStep (0, 0, 0, 0)).2.2.2 = _
    rw [hfold]
    simpa using sumBy_perm (hperm.filter _) _

/-- C7 (counterexample): for the reachable two-digit target year 50, the
income scan uses the ECMAScript-mapped window [Jan 1 1950, Jan 1 1951): a
1950 reward transaction is counted as year-50 income even though no
transaction lies in [Jan 1 of year 50, Jan 1 of year 51). -/
theorem report_income_claim_counterexample :
    (getReportSummary incomeCexDb 50 "u1").totalIncome = 7000 ∧
    incomeCexDb.transactions.filter (isIncomeTxCivil incomeCexDb 50 "u1") = [] := by
  constructor
  · show (if (userWalletIds incomeCexDb "u1").isEmpty then 0
        else (incomeCexDb.transactions.filter
          (isIncomeTxB incomeCexDb 50 "u1")).foldl addValueUsd 0) = 7000
    decide
  · decide

/-- C7 (amended): for a target year of at least 100, the report's income
total is the sum of `valueUsd` over exactly the user's transactions
classified in {reward, airdrop, interest, income} with a timestamp inside
[Jan 1 year, Jan 1 next year), computed by a direct transaction scan that
does not depend on tax lots or disposals. -/
theorem report_income_scan (db : DB) (year : Int) (userId : String)
    (hy : 100 ≤ year) :
    (getReportSummary db year userId).totalIncome =
      sumBy (db.transactions.filter (isIncomeTxCivil db year userId))
        (fun t => t.valueUsd.getD 0) ∧
    (∀ lots' disps',
      (getReportSummary { db with taxLots := lots', disposals := disps' } year
          userId).totalIncome =
        (getReportSummary db year userId).totalIncome) := by
  constructor
  · show (if (userWalletIds db userId).isEmpty then 0
        else (db.transactions.filter (isIncomeTxB db year userId)).foldl addValueUsd 0) = _
    rw [isIncomeTxB_eq_civil db year userId hy]
    by_cases h1 : (userWalletIds db userId).isEmpty
    · rw [if_pos h1]
      have hw : userWalletIds db userId = [] := List.isEmpty_iff.mp h1
      have hnil : db.transactions.filter (isIncomeTxCivil db year userId) = [] := by
        apply List.filter_eq_nil_iff.mpr
        intro t ht
        simp [isIncomeTxCivil, hw]
      rw [hnil]
      simp [sumBy]
    · rw [if_neg h1, addValueUsd_fold]
      simp
  · intro lots' disps'
    rfl

/-- C7 witness: the 2024 income scan over the concrete store counts exactly
the reward transaction ($50.00). -/
theorem report_income_scan_witness :
    (getReportSummary incomeDb 2024 "u1").totalIncome =
      sumBy (incomeDb.transactions.filter (isIncomeTxCivil incomeDb 2024 "u1"))
        (fun t => t.valueUsd.getD 0) ∧
    (getReportSummary incomeDb 2024 "u1").totalIncome = 5000 := by
  have h := report_income_scan incomeDb 2024 "u1" (by decide)
  refine ⟨h.1, ?_⟩
  rw [h.1]
  decide

/-- C6 witness: the 2024 report over the concrete disposals has short gains
$400.00, long losses $100.00 and net $300.00; the 2023 disposal is excluded. -/
theorem report_year_bucketing_witness :
    (getReportSummary taxDb 2024 "u1").shortTermGains = 40000 ∧
    (getReportSummary taxDb 2024 "u1").shortTermLosses = 0 ∧
    (getReportSummary taxDb 2024 "u1").longTermGains = 0 ∧
    (getReportSummary taxDb 2024 "u1").longTermLosses = 10000 ∧
    (getReportSummary taxDb 2024 "u1").netGainLoss = 30000 := by
  obtain ⟨h1, h2, h3, h4, h5⟩ := report_year_bucketing taxDb 2024 "u1" (by decide)
  rw [h1, h2, h3, h4] at *
  refine ⟨by decide, by decide, by decide, by decide, ?_⟩
  rw [h5, h1, h2, h3, h4]
  decide

lemma syncWallet_loop (userId : String) (its : List InsertTransaction) :
    ∀ st : SyncState,
      UserHashUnique st.db userId →
      (∀ it ∈ its, (userWalletIds st.db userId).contains it.walletId = true) →
      UserHashUnique (its.foldl (syncStep userId) st).db userId ∧
      (its.foldl (syncStep userId) st).imported +
          (its.foldl (syncStep userId) st).skipped =
        st.imported + st.skipped + its.length ∧
      (∃ created, (its.foldl (syncStep userId) st).db.transactions =
        st.db.transactions ++ created) ∧
      (its.foldl (syncStep userId) st).db.wallets = st.db.wallets := by
  induction its with
  | nil => exact fun st h _ => ⟨h, by simp, ⟨[], by simp⟩, rfl⟩
  | cons it rest ih =>
    intro st huniq hown
    rw [List.foldl_cons]
    cases hfind : getTransactionByHash st.db it.txHash userId with
    | some t0 =>
      have hstep : syncStep userId st it = { st with skipped := st.skipped + 1 } := by
        unfold syncStep
        rw [hfind]
      rw [hstep]
      obtain ⟨h1, h2, h3, h4⟩ := ih { st with skipped := st.skipped + 1 } huniq
        (fun x hx => hown x (List.mem_cons_of_mem _ hx))
      refine ⟨h1, ?_, h3, h4⟩
      rw [h2]
      simp
      omega
    | none =>
      have hwner : ¬ (userWalletIds st.db userId).isEmpty = true := by
        intro hemp
        have hc := hown it (List.mem_cons_self _ _)
        rw [List.isEmpty_iff.mp hemp] at hc
        simp at hc
      have hfind' : st.db.transactions.find? (fun t =>
          t.txHash == it.txHash &&
          (userWalletIds st.db userId).contains t.walletId) = none := by
        unfold getTransactionByHash at hfind
        rw [if_neg hwner] at hfind
        exact hfind
      have hnodup : ∀ a ∈ userTxs st.db userId, a.txHash ≠ it.txHash := by
        intro a ha
        have hmem := (List.mem_filter.mp ha)
        have hnp := List.find?_eq_none.mp hfind' a hmem.1
        intro hEq
        have hbeq : (a.txHash == it.txHash) = true := by
          rw [hEq]
          exact beq_self_eq_true _
        have hmem2 : a.walletId ∈ userWalletIds st.db userId :=
          List.elem_iff.mp hmem.2
        exact hnp (by simp [hbeq, hmem2])
      have hstep : syncStep userId st it = SyncState.mk
          { st.db with transactions :=
              st.db.transactions ++ [(createTransaction st.db it).2] }
          (st.imported + 1) st.skipped
          (if (createTransaction st.db it).2.needsReview
            then st.needsReviewTxs ++ [(createTransaction st.db it).2]
            else st.needsReviewTxs) := by
        unfold syncStep
        rw [hfind]
        rfl
      rw [hstep]
      have hutx : userTxs ({ st.db with transactions :=
            st.db.transactions ++ [(createTransaction st.db it).2] } : DB) userId
          = userTxs st.db userId ++
            List.filter (fun t => (userWalletIds st.db userId).contains t.walletId)
              [(createTransaction st.db it).2] := by
        unfold userTxs
        exact List.filter_append _ _
      have huniq' : UserHashUnique
          ({ st.db with transactions :=
            st.db.transactions ++ [(createTransaction st.db it).2] } : DB) userId := by
        unfold UserHashUnique
        rw [hutx, List.pairwise_append]
        have hcth : (createTransaction st.db it).2.txHash = it.txHash := rfl
        refine ⟨huniq, ?_, ?_⟩
        · simp only [List.filter_cons, List.filter_nil]
          split <;> simp
        · intro a ha b hb
          have hbmem : b = (createTransaction st.db it).2 := by
            have := List.mem_filter.mp hb
            simpa using this.1
          subst hbmem
          rw [hcth]
          exact hnodup a ha
      obtain ⟨h1, h2, h3, h4⟩ := ih (SyncState.mk _ (st.imported + 1) st.skipped _)
        huniq' (by
          intro x hx
          exact hown x (List.mem_cons_of_mem _ hx))
      refine ⟨h1, ?_, ?_, ?_⟩
      · rw [h2]
        simp
        omega
      · obtain ⟨created, hc⟩ := h3
        refine ⟨(createTransaction st.db it).2 :: created, ?_⟩
        rw [hc]
        simp
      · rw [h4]

/-- C8: the sync loop is check-then-insert per tx hash: starting from a
store with at most one transaction per (user, hash), it keeps that
invariant (a duplicate hash is skipped rather than re-inserted), counts
every fetched row as exactly one of imported/skipped, and only appends. -/
theorem sync_check_then_insert (db : DB) (userId : String)
    (its : List InsertTransaction)
    (huniq : UserHashUnique db userId)
    (hown : ∀ it ∈ its, (userWalletIds db userId).contains it.walletId = true) :
    UserHashUnique (syncWallet db userId its).db userId ∧
    (syncWallet db userId its).imported + (syncWallet db userId its).skipped =
      its.length ∧
    ∃ created, (syncWallet db userId its).db.transactions =
      db.transactions ++ created := by
  obtain ⟨h1, h2, h3, -⟩ := syncWallet_loop userId its ⟨db, 0, 0, []⟩ huniq hown
  exact ⟨h1, by simpa using h2, h3⟩

/-- C8 witness: syncing one new and one duplicate row over the concrete
store. -/
theorem sync_check_then_insert_witness :
    UserHashUnique (syncWallet db1 "u1" [insertNew, insertDup]).db "u1" ∧
    (syncWallet db1 "u1" [insertNew, insertDup]).imported +
      (syncWallet db1 "u1" [insertNew, insertDup]).skipped = 2 ∧
    (∃ created, (syncWallet db1 "u1" [insertNew, insertDup]).db.transactions =
      db1.transactions ++ created) :=
  sync_check_then_insert db1 "u1" [insertNew, insertDup] (by decide) (by decide)

lemma firstDedup_loop_mem (l : List String) :
    ∀ (acc : List String) (y : String),
      (y ∈ l.foldl (fun acc h => if h ∈ acc then acc else acc ++ [h]) acc ↔
        y ∈ acc ∨ y ∈ l) := by
  induction l with
  | nil => simp
  | cons a l ih =>
    intro acc y
    rw [List.foldl_cons]
    by_cases ha : a ∈ acc
    · rw [if_pos ha, ih]
      constructor
      · rintro (h | h)
        · exact Or.inl h
        · exact Or.inr (List.mem_cons_of_mem _ h)
      · rintro (h | h)
        · exact Or.inl h
        · rcases List.mem_cons.mp h with rfl | h
          · exact Or.inl ha
          · exact Or.inr h
    · rw [if_neg ha, ih]
      simp only [List.mem_append, List.mem_singleton, List.mem_cons]
      tauto

lemma firstDedup_loop_nodup (l : List String) :
    ∀ acc : List String, acc.Nodup →
      (l.foldl (fun acc h => if h ∈ acc then acc else acc ++ [h]) acc).Nodup := by
  induction l with
  | nil => exact fun acc h => h
  | cons a l ih =>
    intro acc hacc
    rw [List.foldl_cons]
    by_cases ha : a ∈ acc
    · rw [if_pos ha]
      exact ih acc hacc
    · rw [if_neg ha]
      refine ih _ ?_
      rw [List.nodup_append]
      refine ⟨hacc, List.nodup_singleton a, ?_⟩
      intro x hx
      simp only [List.mem_singleton]
      intro hEq
      exact ha (hEq ▸ hx)

lemma mem_firstDedup (l : List String) (y : String) :
    y ∈ firstDedup l ↔ y ∈ l := by
  unfold firstDedup
  rw [firstDedup_loop_mem]
  simp

lemma firstDedup_nodup (l : List String) : (firstDedup l).Nodup :=
  firstDedup_loop_nodup l [] List.nodup_nil

lemma firstDedup_append (l : List String) (x : String) :
    firstDedup (l ++ [x]) =
      if x ∈ firstDedup l then firstDedup l else firstDedup l ++ [x] := by
  unfold firstDedup
  rw [List.foldl_append]
  rfl

lemma find?_map_keys {α : Type} (L : List String) (f : String → α) (k : String)
    (hk : k ∈ L) :
    (L.map fun h => (h, f h)).find? (fun p => p.1 == k) = some (k, f k) := by
  induction L with
  | nil => cases hk
  | cons a L ih =>
    by_cases hak : a = k
    · subst hak
      simp [List.find?_cons]
    · have hkL : k ∈ L := by
        rcases List.mem_cons.mp hk with rfl | h
        · exact absurd rfl hak
        · exact h
      have hbeq : (a == k) = false := beq_eq_false_iff_ne.mpr hak
      simp only [List.map_cons, List.find?_cons, hbeq]
      exact ih hkL

lemma find?_map_keys_none {α : Type} (L : List String) (f : String → α) (k : String)
    (hk : k ∉ L) :
    (L.map fun h => (h, f h)).find? (fun p => p.1 == k) = none := by
  induction L with
  | nil => rfl
  | cons a L ih =>
    have hak : a ≠ k := fun hEq => hk (hEq ▸ List.mem_cons_self _ _)
    have hkL : k ∉ L := fun h => hk (List.mem_cons_of_mem _ h)
    have hbeq : (a == k) = false := beq_eq_false_iff_ne.mpr hak
    simp only [List.map_cons, List.find?_cons, hbeq]
    exact ih hkL

lemma filter_hash_append_same (ts : List AlchemyTransfer) (t : AlchemyTransfer) :
    (ts ++ [t]).filter (fun x => x.hash == t.hash) =
      ts.filter (fun x => x.hash == t.hash) ++ [t] := by
  rw [List.filter_append]
  simp

lemma filter_hash_append_other (ts : List AlchemyTransfer) (t : AlchemyTransfer)
    (h : String) (hne : h ≠ t.hash) :
    (ts ++ [t]).filter (fun x => x.hash == h) = ts.filter (fun x => x.hash == h) := by
  rw [List.filter_append]
  have : (t.hash == h) = false := beq_eq_false_iff_ne.mpr (fun hEq => hne hEq.symm)
  simp [this]

lemma mkGroup_append_same (wallet : String) (ts : List AlchemyTransfer)
    (t : AlchemyTransfer) (hmem : t.hash ∈ ts.map (·.hash)) :
    mkGroup wallet t.hash (ts ++ [t]) =
      addTransfer wallet (mkGroup wallet t.hash ts) t := by
  obtain ⟨u, hu, huh⟩ := List.mem_map.mp hmem
  have hne : ts.filter (fun x => x.hash == t.hash) ≠ [] := by
    intro hnil
    have : u ∈ ts.filter (fun x => x.hash == t.hash) :=
      List.mem_filter.mpr ⟨hu, by simp [huh]⟩
    rw [hnil] at this
    cases this
  unfold mkGroup
  rw [filter_hash_append_same]
  cases hf : ts.filter (fun x => x.hash == t.hash) with
  | nil => exact absurd hf hne
  | cons t0 rest =>
    simp only [List.cons_append, List.foldl_append]
    rfl

lemma mkGroup_append_other (wallet : String) (ts : List AlchemyTransfer)
    (t : AlchemyTransfer) (h : String) (hne : h ≠ t.hash) :
    mkGroup wallet h (ts ++ [t]) = mkGroup wallet h ts := by
  unfold mkGroup
  rw [filter_hash_append_other ts t h hne]

lemma mkGroup_new (wallet : String) (ts : List AlchemyTransfer)
    (t : AlchemyTransfer) (hmem : t.hash ∉ ts.map (·.hash)) :
    mkGroup wallet t.hash (ts ++ [t]) = newAggTx wallet t := by
  have hnil : ts.filter (fun x => x.hash == t.hash) = [] := by
    apply List.filter_eq_nil_iff.mpr
    intro x hx
    intro hbeq
    exact hmem (List.mem_map.mpr ⟨x, hx, eq_of_beq hbeq⟩)
  unfold mkGroup
  rw [filter_hash_append_same, hnil]
  rfl

/-- The grouping loop equals one entry per first-occurrence hash, whose
group is accumulated over exactly the transfers with that hash. -/
lemma groupTransfers_eq (wallet : String) (ts : List AlchemyTransfer) :
    groupTransfers wallet ts =
      (firstDedup (ts.map (·.hash))).map fun h => (h, mkGroup wallet h ts) := by
  induction ts using List.reverseRecOn with
  | nil => rfl
  | append_singleton ts t ih =>
    have hL : groupTransfers wallet (ts ++ [t]) =
        groupStep wallet (groupTransfers wallet ts) t := by
      unfold groupTransfers
      rw [List.foldl_append]
      rfl
    rw [hL, ih]
    simp only [List.map_append, List.map_cons, List.map_nil]
    rw [firstDedup_append]
    by_cases hmem : t.hash ∈ ts.map (·.hash)
    · rw [if_pos ((mem_firstDedup _ _).mpr hmem)]
      unfold groupStep
      rw [find?_map_keys _ _ _ ((mem_firstDedup _ _).mpr hmem)]
      dsimp only
      rw [List.map_map]
      apply List.map_congr_left
      intro h hh
      simp only [Function.comp_apply]
      by_cases hht : h = t.hash
      · subst hht
        rw [if_pos (beq_self_eq_true t.hash)]
        rw [mkGroup_append_same wallet ts t hmem]
      · rw [if_neg (by simp [beq_eq_false_iff_ne.mpr hht])]
        rw [mkGroup_append_other wallet ts t h hht]
    · rw [if_neg (fun hc => hmem ((mem_firstDedup _ _).mp hc))]
      unfold groupStep
      rw [find?_map_keys_none _ _ _ (fun hc => hmem ((mem_firstDedup _ _).mp hc))]
      dsimp only
      rw [List.map_append]
      congr 1
      · apply List.map_congr_left
        intro h hh
        have hne : h ≠ t.hash := fun hEq => hmem (hEq ▸ (mem_firstDedup _ _).mp hh)
        rw [mkGroup_append_other wallet ts t h hne]
      · simp [mkGroup_new wallet ts t hmem]

lemma foldl_addTransfer_transfers (wallet : String) (l : List AlchemyTransfer)
    (a : AggregatedTx) :
    (l.foldl (addTransfer wallet) a).transfers = a.transfers ++ l := by
  induction l generalizing a with
  | nil => simp
  | cons t l ih =>
    rw [List.foldl_cons, ih]
    simp [addTransfer]

lemma foldl_addTransfer_tokensIn (wallet : String) (l : List AlchemyTransfer)
    (a : AggregatedTx) :
    (l.foldl (addTransfer wallet) a).tokensIn =
      a.tokensIn ++
        (l.filter fun t => isIncomingB wallet t && truthyVal t.value).map legOf := by
  induction l generalizing a with
  | nil => simp
  | cons t l ih =>
    rw [List.foldl_cons, ih]
    by_cases hc : (isIncomingB wallet t && truthyVal t.value) = true
    · simp [addTransfer, hc, List.filter_cons]
    · simp [addTransfer, hc, List.filter_cons]

lemma foldl_addTransfer_tokensOut (wallet : String) (l : List AlchemyTransfer)
    (a : AggregatedTx) :
    (l.foldl (addTransfer wallet) a).tokensOut =
      a.tokensOut ++
        (l.filter fun t => isOutgoingB wallet t && truthyVal t.value).map legOf := by
  induction l generalizing a with
  | nil => simp
  | cons t l ih =>
    rw [List.foldl_cons, ih]
    by_cases hc : (isOutgoingB wallet t && truthyVal t.value) = true
    · simp [addTransfer, hc, List.filter_cons]
    · simp [addTransfer, hc, List.filter_cons]

lemma mkGroup_fields (wallet h : String) (ts : List AlchemyTransfer)
    (hne : ts.filter (fun t => t.hash == h) ≠ []) :
    (mkGroup wallet h ts).transfers = ts.filter (fun t => t.hash == h) ∧
    (mkGroup wallet h ts).tokensIn = ((ts.filter fun t => t.hash == h).filter
      (fun t => isIncomingB wallet t && truthyVal t.value)).map legOf ∧
    (mkGroup wallet h ts).tokensOut = ((ts.filter fun t => t.hash == h).filter
      (fun t => isOutgoingB wallet t && truthyVal t.value)).map legOf := by
  unfold mkGroup
  cases hf : ts.filter (fun t => t.hash == h) with
  | nil => exact absurd hf hne
  | cons t0 rest =>
    refine ⟨?_, ?_, ?_⟩
    · rw [foldl_addTransfer_transfers]
      simp [newAggTx]
    · rw [foldl_addTransfer_tokensIn]
      rw [List.filter_cons]
      by_cases hc : (isIncomingB wallet t0 && truthyVal t0.value) = true
      · simp [newAggTx, hc]
      · simp [newAggTx, hc]
    · rw [foldl_addTransfer_tokensOut]
      rw [List.filter_cons]
      by_cases hc : (isOutgoingB wallet t0 && truthyVal t0.value) = true
      · simp [newAggTx, hc]
      · simp [newAggTx, hc]

/-- C9: transfer grouping is total and deterministic — group keys are
pairwise distinct hashes, every transfer's hash has a group, each group's
legs come from exactly the transfers with its hash in observation order,
and a transfer with a null or zero `value` contributes no inbound or
outbound leg (the leg lists are the value-truthy incoming/outgoing
transfers, in order). -/
theorem grouping_characterization (wallet : String) (ts : List AlchemyTransfer) :
    ((groupTransfers wallet ts).map Prod.fst).Nodup ∧
    (∀ t ∈ ts, ∃ p ∈ groupTransfers wallet ts, p.1 = t.hash) ∧
    (∀ p ∈ groupTransfers wallet ts,
      p.2.transfers = ts.filter (fun t => t.hash == p.1) ∧
      p.2.tokensIn = ((ts.filter fun t => t.hash == p.1).filter
        (fun t => isIncomingB wallet t && truthyVal t.value)).map legOf ∧
      p.2.tokensOut = ((ts.filter fun t => t.hash == p.1).filter
        (fun t => isOutgoingB wallet t && truthyVal t.value)).map legOf) := by
  rw [groupTransfers_eq]
  refine ⟨?_, ?_, ?_⟩
  · rw [List.map_map]
    have hcomp : Prod.fst ∘ (fun h => (h, mkGroup wallet h ts)) = id := rfl
    rw [hcomp, List.map_id]
    exact firstDedup_nodup _
  · intro t ht
    refine ⟨(t.hash, mkGroup wallet t.hash ts), ?_, rfl⟩
    exact List.mem_map.mpr
      ⟨t.hash, (mem_firstDedup _ _).mpr (List.mem_map.mpr ⟨t, ht, rfl⟩), rfl⟩
  · intro p hp
    obtain ⟨h, hh, rfl⟩ := List.mem_map.mp hp
    have hmemh : h ∈ ts.map (·.hash) := (mem_firstDedup _ _).mp hh
    have hne : ts.filter (fun t => t.hash == h) ≠ [] := by
      obtain ⟨u, hu, huh⟩ := List.mem_map.mp hmemh
      intro hnil
      have hmemu : u ∈ ts.filter (fun t => t.hash == h) :=
        List.mem_filter.mpr ⟨hu, by simp [huh]⟩
      rw [hnil] at hmemu
      cases hmemu
    exact mkGroup_fields wallet h ts hne

/-- C9 witness: grouping three concrete transfers (two sharing hash `0xh1`,
one with hash `0xh2`). -/
theorem grouping_characterization_witness :
    ((groupTransfers "0xme"
      [usdcInTransfer, daiOutTransfer, nullAirdropTransfer]).map Prod.fst).Nodup ∧
    (∃ p ∈ groupTransfers "0xme"
      [usdcInTransfer, daiOutTransfer, nullAirdropTransfer],
      p.1 = usdcInTransfer.hash) ∧
    ("0xh1", mkGroup "0xme" "0xh1"
        [usdcInTransfer, daiOutTransfer, nullAirdropTransfer]).2.transfers =
      [usdcInTransfer, daiOutTransfer, nullAirdropTransfer].filter
        (fun t => t.hash == "0xh1") :=
  ⟨(grouping_characterization "0xme" _).1,
   (grouping_characterization "0xme" _).2.1 usdcInTransfer (by decide),
   ((grouping_characterization "0xme" _).2.2
      ("0xh1", mkGroup "0xme" "0xh1" _) (by decide)).1⟩

lemma any_congr_rel {α β : Type} {R : α → β → Prop} {l : List α} {l' : List β}
    (h : List.Forall₂ R l l') {p : α → Bool} {q : β → Bool}
    (hpq : ∀ a b, R a b → p a = q b) :
    l.any p = l'.any q := by
  induction h with
  | nil => rfl
  | cons hab htail ih => simp [List.any_cons, hpq _ _ hab, ih]

lemma classifyRest_caseEq (tx tx' : AggregatedTx) (w w' : String)
    (h : txCaseEq tx tx') (hw : caseEq w w') :
    classifyRest tx (jsToLower w) = classifyRest tx' (jsToLower w') := by
  obtain ⟨hh, hb, hts, hrel, hin, hout, hnft, hmint, hint, hci⟩ := h
  have hw' : jsToLower w = jsToLower w' := hw
  have h1 : hasInB tx = hasInB tx' := by
    unfold hasInB
    rw [hin]
  have h2 : hasOutB tx = hasOutB tx' := by
    unfold hasOutB
    rw [hout]
  have h3 : hasDistinctTokensB tx = hasDistinctTokensB tx' := by
    unfold hasDistinctTokensB inSymbolsOf outSymbolsOf
    rw [hin, hout]
  have h4 : interactedWithDexB tx = interactedWithDexB tx' := by
    unfold interactedWithDexB
    refine any_congr_rel hrel ?_
    intro a b hab
    obtain ⟨-, -, hf, ht, -, -, -, -, -⟩ := hab
    rw [hf, ht]
  have h5 : fromNullAddrB tx (jsToLower w) = fromNullAddrB tx' (jsToLower w') := by
    unfold fromNullAddrB
    refine any_congr_rel hrel ?_
    intro a b hab
    obtain ⟨-, -, hf, ht, -, -, -, -, -⟩ := hab
    rw [hf, ht, hw']
  have h6 : tx.transfers.length = tx'.transfers.length := hrel.length_eq
  unfold classifyRest
  rw [hnft, hmint, hint, h1, h2, h3, h4, h5, h6]

lemma classify_caseEq_aux (w w' : String) (hw' : jsToLower w = jsToLower w')
    (l : List AlchemyTransfer) (l' : List AlchemyTransfer)
    (hrel : List.Forall₂ transferCaseEq l l')
    (tx tx' : AggregatedTx) (hl : tx.transfers = l) (hl' : tx'.transfers = l')
    (hcr : classifyRest tx (jsToLower w) = classifyRest tx' (jsToLower w')) :
    classifyAggregatedTx tx w = classifyAggregatedTx tx' w' := by
  unfold classifyAggregatedTx
  rw [hl, hl']
  cases hrel with
  | nil => exact hcr
  | @cons a b la lb hab htail =>
    cases htail with
    | nil =>
      obtain ⟨-, -, hf, ht, -, -, -, -, -⟩ := hab
      show (if lowOpt a.toAddr = some (jsToLower a.fromAddr) then "self_transfer"
        else if jsToLower a.fromAddr = jsToLower w ∨
            lowOpt a.toAddr = some (jsToLower w) then "transfer"
        else classifyRest tx (jsToLower w)) = _
      rw [hw'] at hcr
      rw [hf, ht, hw']
      exact if_congr Iff.rfl rfl (if_congr Iff.rfl rfl hcr)
    | cons hab2 htail2 => exact hcr

/-- C10: the classifier is invariant under letter case of the wallet
address and of the transfers' from/to addresses: all address comparisons
happen after lowercasing. -/
theorem classify_case_invariant (tx tx' : AggregatedTx) (w w' : String)
    (h : txCaseEq tx tx') (hw : caseEq w w') :
    classifyAggregatedTx tx w = classifyAggregatedTx tx' w' := by
  have hcr := classifyRest_caseEq tx tx' w w' h hw
  exact classify_caseEq_aux w w' hw tx.transfers tx'.transfers h.2.2.2.1
    tx tx' rfl rfl hcr

/-- C10 witness: the concrete airdrop group classifies identically with
`0xme`/`0xME` address spellings. -/
theorem classify_case_invariant_witness :
    classifyAggregatedTx singleAirdropTx "0xme" =
      classifyAggregatedTx upperAirdropTx "0xME" :=
  classify_case_invariant singleAirdropTx upperAirdropTx "0xme" "0xME"
    (by decide) (by decide)
